import Mathlib

/-!
Verification development for the `client-sqlite` procedure package.

The package registers four RPC procedures (`db.query`, `db.execute`,
`logs.store`, `logs.query`) that forward to an external SQLite library.
The logic owned by the package itself — default path resolution, the
pass-through schema adapter, the `logs.store` level validation and row
construction, and the dynamic SQL assembly of `logs.query` — is embedded
below as executable Lean definitions, translated from
`src/src/register.ts` and `src/dist/types.js`.  External collaborators
(the SQLite engine, `JSON.stringify` / `JSON.parse`) are modelled as
parameters with their platform contracts taken as hypotheses where a
claim needs them.
-/

namespace ClientSqlite

/-- Valid log levels, from `LOG_LEVELS` in `src/dist/types.js`. -/
def LOG_LEVELS : List String := ["trace", "debug", "info", "warn", "error"]

/-- JavaScript `Array.prototype.join`: concatenate the elements with the
separator between consecutive elements.  Used by the `logs.query` assembly
(`conditions.join(" AND ")`, `placeholders.join(", ")`). -/
def joinSep (sep : String) : List String → String
  | [] => ""
  | [x] => x
  | x :: y :: xs => x ++ sep ++ joinSep sep (y :: xs)

/-- Default database path, from `src/dist/types.js`:
`join(homedir(), "logs", "cli", "cli.db")`.  The home directory is a
runtime value, so it is a parameter; `node:path.join` on segments without
separators or dots is plain `/`-interposition. -/
def DEFAULT_DB_PATH (home : String) : String :=
  joinSep "/" [home, "logs", "cli", "cli.db"]

/-! ### Schema pass-through adapter (`register.ts` lines 36-68) -/

/-- Shape of the error field of a failed parse, from `ZodErrorLike` in
`register.ts`.  The pass-through adapter never constructs one. -/
structure ZodErrorLike where
  message : String
  errors : List (List String × String)

/-- Result of `safeParse`, the two-variant union returned in
`register.ts` lines 43-45. -/
inductive SafeParseResult (T : Type) where
  | success (data : T)
  | failure (error : ZodErrorLike)

/-- The `ZodLikeSchema<T>` interface of `register.ts` lines 41-47
(the phantom `_output` field carries no data and is dropped). -/
structure ZodLikeSchema (T : Type) where
  parse : T → T
  safeParse : T → SafeParseResult T

/-- The `schema<T>()` factory of `register.ts` lines 49-55: `parse`
returns its argument unchanged and `safeParse` always succeeds with the
argument as data.  In the source the argument has type `unknown` and is
cast; the embedding types it at `T` since no inspection ever happens. -/
def schema (T : Type) : ZodLikeSchema T :=
  { parse := fun data => data
    safeParse := fun data => SafeParseResult.success data }

/-! ### Input and output shapes (`src/dist/types.d.ts`) -/

/-- `DbQueryInput` from `types.d.ts`.  Parameter values are opaque
scalars; they are modelled as SQL values (`Option String`, `none` being
SQL NULL). -/
structure DbQueryInput where
  sql : String
  params : Option (List (Option String)) := none
  dbPath : Option String := none

/-- `DbExecuteInput` from `types.d.ts` (same shape as `DbQueryInput`). -/
structure DbExecuteInput where
  sql : String
  params : Option (List (Option String)) := none
  dbPath : Option String := none

/-- `LogsStoreInput` from `types.d.ts`.  The `data` field is an arbitrary
JSON-serializable mapping, handled opaquely by the package, so its type is
a parameter `α`. -/
structure LogsStoreInput (α : Type) where
  level : String
  message : String
  sessionId : Option String := none
  command : Option String := none
  context : Option String := none
  data : Option α := none
  errorStack : Option String := none
  dbPath : Option String := none

/-- `LogsQueryInput` from `types.d.ts`.  The `level` filter is a single
level or an array (`Sum.inl` / `Sum.inr`).  The declared types of `limit`
and `offset` are numbers, but the schema adapter performs no validation,
so any runtime value can arrive; since the assembly interpolates them
into the SQL with a template literal (`register.ts` lines 235-236), they
are modelled by the string rendering of whatever value was provided. -/
structure LogsQueryInput where
  sessionId : Option String := none
  command : Option String := none
  level : Option (String ⊕ List String) := none
  limit : Option String := none
  offset : Option String := none
  orderBy : Option String := none
  dbPath : Option String := none

/-! ### `db.query` and `db.execute` handlers (`register.ts` lines 113-150) -/

/-- The call each `db.*` handler makes against the external library: the
resolved path, the SQL text, and the positional parameters. -/
structure DbCall where
  dbPath : String
  sql : String
  params : List (Option String)

/-- The `db.query` handler body (`register.ts` lines 118-128):
`dbPath = input.dbPath ?? DEFAULT_DB_PATH`, `params = input.params ?? []`,
then a scoped connection runs `query(db, input.sql, params)`. -/
def dbQuery (home : String) (input : DbQueryInput) : DbCall :=
  { dbPath := input.dbPath.getD (DEFAULT_DB_PATH home)
    sql := input.sql
    params := input.params.getD [] }

/-- The `db.execute` handler body (`register.ts` lines 141-148), identical
connection handling to `db.query`. -/
def dbExecute (home : String) (input : DbExecuteInput) : DbCall :=
  { dbPath := input.dbPath.getD (DEFAULT_DB_PATH home)
    sql := input.sql
    params := input.params.getD [] }

/-! ### `logs.store` handler (`register.ts` lines 156-194) -/

/-- Translation of `input.data ? JSON.stringify(input.data) : null`
(`register.ts` line 173).  `input.data` is a JS object or `undefined`;
every object — including the empty object — is truthy, so the branch is
exactly on presence. -/
def dataJson {α : Type} (stringify : α → String) : Option α → Option String
  | some d => some (stringify d)
  | none => none

/-- The INSERT statement text of `register.ts` lines 177-178. -/
def logsInsertSql : String :=
  "INSERT INTO logs (level, message, data, session_id, command, context, error_stack)\n         VALUES (?, ?, ?, ?, ?, ?, ?)"

/-- The positional bind values of the INSERT (`register.ts` lines
179-187): level, message, serialized data, then `?? null` on the four
optional text fields. -/
def logsStoreInsertValues {α : Type} (stringify : α → String)
    (input : LogsStoreInput α) : List (Option String) :=
  [some input.level, some input.message, dataJson stringify input.data,
   input.sessionId, input.command, input.context, input.errorStack]

/-- Observable storage actions a `logs.store` call performs, in order. -/
inductive StoreEffect where
  | ensureTable (dbPath : String)
  | openConnection (dbPath : String)
  | insertRow (sql : String) (values : List (Option String))
  | readLastInsertRowId
deriving DecidableEq

/-- Result of running the `logs.store` handler: the resolved path, the
ordered storage actions performed, and success or the thrown error. -/
structure StoreResult where
  dbPath : String
  effects : List StoreEffect
  outcome : Except String Unit

/-- The `logs.store` handler body (`register.ts` lines 161-193): resolve
`dbPath`, throw `Invalid log level: ...` when `LOG_LEVELS` does not
include `input.level`, otherwise ensure the table, open a connection,
insert the row and read the last-insert id. -/
def logsStore {α : Type} (home : String) (stringify : α → String)
    (input : LogsStoreInput α) : StoreResult :=
  let dbPath := input.dbPath.getD (DEFAULT_DB_PATH home)
  if ¬ (input.level ∈ LOG_LEVELS) then
    { dbPath := dbPath
      effects := []
      outcome := Except.error ("Invalid log level: " ++ input.level) }
  else
    { dbPath := dbPath
      effects := [StoreEffect.ensureTable dbPath, StoreEffect.openConnection dbPath,
        StoreEffect.insertRow logsInsertSql (logsStoreInsertValues stringify input),
        StoreEffect.readLastInsertRowId]
      outcome := Except.ok () }

/-! ### `logs.query` SQL assembly (`register.ts` lines 205-257) -/

/-- Translation of `Array.isArray(input.level) ? input.level : [input.level]`
(`register.ts` line 226). -/
def jsLevelArray : String ⊕ List String → List String
  | Sum.inl l => [l]
  | Sum.inr ls => ls

/-- The sequential build of `conditions` and `params` (`register.ts`
lines 212-230): starting from two empty arrays, push the sessionId
equality, then the command equality, then the level membership clause —
each only when the corresponding filter is present — appending the bind
values in the same order. -/
def logsQueryFilters (input : LogsQueryInput) : List String × List String :=
  let acc : List String × List String := ([], [])
  let acc : List String × List String :=
    match input.sessionId with
    | some s => (acc.1 ++ ["session_id = ?"], acc.2 ++ [s])
    | none => acc
  let acc : List String × List String :=
    match input.command with
    | some c => (acc.1 ++ ["command = ?"], acc.2 ++ [c])
    | none => acc
  let acc : List String × List String :=
    match input.level with
    | some lv =>
      let levels := jsLevelArray lv
      let placeholders := joinSep ", " (levels.map fun _ => "?")
      (acc.1 ++ ["level IN (" ++ placeholders ++ ")"], acc.2 ++ levels)
    | none => acc
  acc

/-- The `conditions` array after the three pushes. -/
def conditions (input : LogsQueryInput) : List String :=
  (logsQueryFilters input).1

/-- The `params` array after the three pushes. -/
def params (input : LogsQueryInput) : List String :=
  (logsQueryFilters input).2

/-- `whereClause` (`register.ts` lines 232-233):
`conditions.length > 0 ? "WHERE " + conditions.join(" AND ") : ""`. -/
def whereClause (input : LogsQueryInput) : String :=
  if 0 < (conditions input).length then
    "WHERE " ++ joinSep " AND " (conditions input)
  else ""

/-- `orderDir` (`register.ts` line 234):
`input.orderBy === "asc" ? "ASC" : "DESC"`. -/
def orderDir (input : LogsQueryInput) : String :=
  if input.orderBy = some "asc" then "ASC" else "DESC"

/-- `limitClause` (`register.ts` line 235):
`input.limit !== undefined ? "LIMIT " + input.limit : ""`. -/
def limitClause (input : LogsQueryInput) : String :=
  match input.limit with
  | some l => "LIMIT " ++ l
  | none => ""

/-- `offsetClause` (`register.ts` line 236):
`input.offset !== undefined ? "OFFSET " + input.offset : ""`. -/
def offsetClause (input : LogsQueryInput) : String :=
  match input.offset with
  | some o => "OFFSET " ++ o
  | none => ""

/-- The fixed head of the query template (`register.ts` lines 238-240),
up to the `whereClause` interpolation point, whitespace included. -/
def sqlSelectHead : String :=
  "\n        SELECT id, timestamp, level, message, data, session_id, command, context, error_stack\n        FROM logs\n        "

/-- The assembled SQL text of `logs.query` (`register.ts` lines 238-245):
the template literal with `whereClause`, `orderDir`, `limitClause` and
`offsetClause` interpolated. -/
def logsQuerySql (input : LogsQueryInput) : String :=
  sqlSelectHead ++ whereClause input ++
    "\n        ORDER BY timestamp " ++ orderDir input ++
    "\n        " ++ limitClause input ++
    "\n        " ++ offsetClause input ++
    "\n      "

/-- The full `logs.query` handler call against the external library
(`register.ts` lines 206, 247-257): resolved path, assembled SQL, and the
bind values. -/
def logsQueryCall (home : String) (input : LogsQueryInput) : DbCall :=
  { dbPath := input.dbPath.getD (DEFAULT_DB_PATH home)
    sql := logsQuerySql input
    params := (params input).map Option.some }

/-! ### `logs.query` row mapping (`register.ts` lines 247-271) -/

/-- The raw row shape returned by the engine for the log query
(`register.ts` lines 247-257); nullable columns are `Option String`. -/
structure LogRow where
  id : Int
  timestamp : String
  level : String
  message : String
  data : Option String := none
  session_id : Option String := none
  command : Option String := none
  context : Option String := none
  error_stack : Option String := none

/-- The public `LogEntry` shape (`types.d.ts`), with the `data` column
deserialized to a mapping of type `α` or `null`. -/
structure LogEntry (α : Type) where
  id : Int
  timestamp : String
  level : String
  message : String
  data : Option α
  sessionId : Option String
  command : Option String
  context : Option String
  errorStack : Option String

/-- Translation of `row.data ? JSON.parse(row.data) : null`
(`register.ts` line 264).  `row.data` is a string or SQL NULL; JS
truthiness sends both `null` and the empty string to the `null` branch,
and every other string to `JSON.parse`, whose failure propagates
(`Except.error`). -/
def dataField {α : Type} (parse : String → Except String α) :
    Option String → Except String (Option α)
  | some s => if s = "" then Except.ok none else (parse s).map Option.some
  | none => Except.ok none

/-- The per-row mapping callback of `result.rows.map` (`register.ts`
lines 259-269): rename storage columns to public field names and
deserialize `data`. -/
def mapRow {α : Type} (parse : String → Except String α) (row : LogRow) :
    Except String (LogEntry α) :=
  (dataField parse row.data).map fun d =>
    { id := row.id, timestamp := row.timestamp, level := row.level
      message := row.message, data := d, sessionId := row.session_id
      command := row.command, context := row.context
      errorStack := row.error_stack }

/-- `result.rows.map(...)` with a callback that can throw: the rows are
mapped in order and the first thrown parse error aborts the whole call. -/
def mapRows {α : Type} (parse : String → Except String α) :
    List LogRow → Except String (List (LogEntry α))
  | [] => Except.ok []
  | row :: rest => do
    let entry ← mapRow parse row
    let entries ← mapRows parse rest
    pure (entry :: entries)

/-! ### Output shapes and the eight schema constants
(`types.d.ts`; `register.ts` lines 61-68) -/

/-- `DbQueryOutput<T>` from `types.d.ts`. -/
structure DbQueryOutput (ρ : Type) where
  columns : List String
  rows : List ρ

/-- `DbExecuteOutput` from `types.d.ts`. -/
structure DbExecuteOutput where
  changes : Int

/-- `LogsStoreOutput` from `types.d.ts`. -/
structure LogsStoreOutput where
  id : Int

/-- `LogsQueryOutput` from `types.d.ts`; `total` is declared but never
populated by the handler. -/
structure LogsQueryOutput (α : Type) where
  logs : List (LogEntry α)
  total : Option Nat := none

/-- Schema constant of `register.ts` line 61. -/
def dbQueryInputSchema : ZodLikeSchema DbQueryInput := schema _

/-- Schema constant of `register.ts` line 62. -/
def dbQueryOutputSchema (ρ : Type) : ZodLikeSchema (DbQueryOutput ρ) := schema _

/-- Schema constant of `register.ts` line 63. -/
def dbExecuteInputSchema : ZodLikeSchema DbExecuteInput := schema _

/-- Schema constant of `register.ts` line 64. -/
def dbExecuteOutputSchema : ZodLikeSchema DbExecuteOutput := schema _

/-- Schema constant of `register.ts` line 65. -/
def logsStoreInputSchema (α : Type) : ZodLikeSchema (LogsStoreInput α) := schema _

/-- Schema constant of `register.ts` line 66. -/
def logsStoreOutputSchema : ZodLikeSchema LogsStoreOutput := schema _

/-- Schema constant of `register.ts` line 67. -/
def logsQueryInputSchema : ZodLikeSchema LogsQueryInput := schema _

/-- Schema constant of `register.ts` line 68. -/
def logsQueryOutputSchema (α : Type) : ZodLikeSchema (LogsQueryOutput α) := schema _

/-! ### String infrastructure: contiguous occurrence in the assembled SQL -/

/-- Proposition that `pat` occurs contiguously in `s`. -/
def HasSubstr (pat s : String) : Prop := pat.data <:+: s.data

instance (p s : String) : Decidable (HasSubstr p s) :=
  inferInstanceAs (Decidable (p.data <:+: s.data))

/-- Characters that can occur in an entry of `conditions`. -/
def condClauseChars : List Char := ("session_id = ?command level IN(,)").data

/-- Characters that can occur in `whereClause`. -/
def whereChars : List Char := ("WHERE AND").data ++ condClauseChars

/-- Characters a JavaScript template literal renders for a finite number
value: digits, sign, decimal point, exponent marker. -/
def jsNumberChars : List Char := ("0123456789+-.e").data

/-- The string is the rendering of a finite JS number. -/
def RenderedNumber (s : String) : Prop := ∀ c ∈ s.data, c ∈ jsNumberChars

instance (s : String) : Decidable (RenderedNumber s) :=
  inferInstanceAs (Decidable (∀ c ∈ s.data, c ∈ jsNumberChars))

/-- Toy serializer on a one-value type: every value renders as the empty
JSON object text.  Used to instantiate the platform codec hypotheses of
round-trip statements on a concrete codec. -/
def unitStringify : Unit → String := fun _ => "\x7b\x7d"

/-- Toy deserializer matching `unitStringify`: accepts exactly the empty
JSON object text and fails on everything else. -/
def unitParse : String → Except String Unit :=
  fun s => if s = "\x7b\x7d" then Except.ok () else Except.error "unexpected JSON"

/-- Exhibit an occurrence by a concrete decomposition of the text. -/
theorem hasSubstr_intro {p s : String} (u v : List Char)
    (h : s.data = (u ++ p.data) ++ v) : HasSubstr p s :=
  ⟨u, v, h.symm⟩

/-- An occurrence of `p` in `a ++ b` lies in `a`, lies in `b`, or spans
the boundary: a nonempty suffix-piece of `a` followed by a nonempty
prefix-piece of `b`. -/
theorem isInfix_append_split {α : Type} {p a b : List α} (h : p <:+: a ++ b) :
    p <:+: a ∨ p <:+: b ∨
      ∃ p₁ p₂, p₁ ++ p₂ = p ∧ p₁ ≠ [] ∧ p₂ ≠ [] ∧ p₁ <:+ a ∧ p₂ <+: b := by
  obtain ⟨s, t, hst⟩ := h
  have h1 : a ++ b = s ++ (p ++ t) := by rw [← hst, List.append_assoc]
  rcases List.append_eq_append_iff.mp h1 with ⟨a', _, hb'⟩ | ⟨c', hc', hd'⟩
  · right; left
    exact ⟨a', t, by rw [hb', List.append_assoc]⟩
  · rcases List.append_eq_append_iff.mp hd' with ⟨x, hx, _⟩ | ⟨y, hy, hb2⟩
    · left
      exact ⟨s, x, by rw [hc', hx, List.append_assoc]⟩
    · by_cases hc0 : c' = []
      · right; left
        subst hc0
        simp only [List.nil_append] at hy
        exact ⟨[], t, by simp [← hy, hb2]⟩
      · by_cases hy0 : y = []
        · left
          subst hy0
          rw [List.append_nil] at hy
          exact ⟨s, [], by simp [hc', hy]⟩
        · right; right
          exact ⟨c', y, hy.symm, hc0, hy0, ⟨s, hc'.symm⟩, ⟨t, hb2.symm⟩⟩

/-- No occurrence of `p` in `a ++ b` when there is none in `a`, none in
`b`, and the first element of `b` does not occur in `p.tail` (so no
boundary-spanning occurrence can exist either). -/
theorem not_isInfix_append_of_head {α : Type} {p a b : List α}
    (ha : ¬ p <:+: a) (hb : ¬ p <:+: b)
    (hh : ∀ c, b.head? = some c → c ∉ p.tail) :
    ¬ p <:+: a ++ b := by
  intro h
  rcases isInfix_append_split h with h | h | ⟨p₁, p₂, hp, hp₁, hp₂, _, hpre⟩
  · exact ha h
  · exact hb h
  · obtain ⟨t, ht⟩ := hpre
    cases p₂ with
    | nil => exact hp₂ rfl
    | cons c p₂' =>
      have hbh : b.head? = some c := by rw [← ht]; rfl
      apply hh c hbh
      cases p₁ with
      | nil => exact absurd rfl hp₁
      | cons d p₁' => rw [← hp]; simp

/-- No occurrence of `p` in `s` when some element of `p` is absent from
`s` altogether. -/
theorem not_isInfix_of_forbidden {α : Type} {c : α} {p s : List α}
    (hc : c ∈ p) (hs : c ∉ s) : ¬ p <:+: s :=
  fun h => hs (h.subset hc)

/-! ### `joinSep` lemmas -/

theorem joinSep_cons (sep x : String) {l : List String} (hl : l ≠ []) :
    joinSep sep (x :: l) = x ++ sep ++ joinSep sep l := by
  cases l with
  | nil => exact absurd rfl hl
  | cons y ys => rfl

/-- Every character of a join comes from the separator or from one of
the joined strings. -/
theorem mem_data_joinSep {c : Char} {sep : String} {l : List String}
    (h : c ∈ (joinSep sep l).data) : c ∈ sep.data ∨ ∃ s ∈ l, c ∈ s.data := by
  induction l with
  | nil => simp [joinSep] at h
  | cons x xs ih =>
    cases xs with
    | nil =>
      refine Or.inr ⟨x, by simp, ?_⟩
      simpa [joinSep] using h
    | cons y ys =>
      rw [joinSep, String.data_append, String.data_append] at h
      rcases List.mem_append.mp h with h1 | h2
      · rcases List.mem_append.mp h1 with hx | hs
        · exact Or.inr ⟨x, by simp, hx⟩
        · exact Or.inl hs
      · rcases ih h2 with hs | ⟨s, hsl, hcs⟩
        · exact Or.inl hs
        · exact Or.inr ⟨s, by simp [hsl], hcs⟩

/-- The number of `?` characters in the joined placeholder list is the
number of placeholders. -/
theorem count_joinSep_replicate (n : Nat) :
    ((joinSep ", " (List.replicate n "?")).data.count '?') = n := by
  induction n with
  | zero => rfl
  | succ m ih =>
    cases m with
    | zero => rfl
    | succ k =>
      rw [List.replicate_succ, joinSep_cons _ _ (by simp),
        String.data_append, String.data_append, List.count_append, List.count_append, ih]
      have h1 : List.count '?' "?".data = 1 := rfl
      have h2 : List.count '?' ", ".data = 0 := rfl
      omega

/-! ### Characterization of the filter build -/

/-- The sequential push build produces the three optional clauses and
the three optional bind-value groups in the fixed order sessionId,
command, level. -/
theorem logsQueryFilters_eq (input : LogsQueryInput) :
    logsQueryFilters input =
      ((match input.sessionId with
        | some _ => ["session_id = ?"]
        | none => ([] : List String)) ++
       (match input.command with
        | some _ => ["command = ?"]
        | none => []) ++
       (match input.level with
        | some lv =>
            ["level IN (" ++ joinSep ", " ((jsLevelArray lv).map fun _ => "?") ++ ")"]
        | none => []),
       (match input.sessionId with
        | some s => [s]
        | none => ([] : List String)) ++
       (match input.command with
        | some c => [c]
        | none => []) ++
       (match input.level with
        | some lv => jsLevelArray lv
        | none => [])) := by
  rcases input with ⟨sid, cmd, lv, lim, off, ob, dbp⟩
  cases sid <;> cases cmd <;> cases lv <;> simp [logsQueryFilters]

theorem conditions_eq (input : LogsQueryInput) :
    conditions input =
      (match input.sessionId with
       | some _ => ["session_id = ?"]
       | none => ([] : List String)) ++
      (match input.command with
       | some _ => ["command = ?"]
       | none => []) ++
      (match input.level with
       | some lv =>
           ["level IN (" ++ joinSep ", " ((jsLevelArray lv).map fun _ => "?") ++ ")"]
       | none => []) :=
  congrArg Prod.fst (logsQueryFilters_eq input)

theorem params_eq (input : LogsQueryInput) :
    params input =
      (match input.sessionId with
       | some s => [s]
       | none => ([] : List String)) ++
      (match input.command with
       | some c => [c]
       | none => []) ++
      (match input.level with
       | some lv => jsLevelArray lv
       | none => []) :=
  congrArg Prod.snd (logsQueryFilters_eq input)

/-! ### Character sets of the assembled fragments -/

theorem mem_conditions_chars {input : LogsQueryInput} {s : String}
    (hs : s ∈ conditions input) {c : Char} (hc : c ∈ s.data) :
    c ∈ condClauseChars := by
  rw [conditions_eq] at hs
  rcases List.mem_append.mp hs with hs1 | hlvl
  · rcases List.mem_append.mp hs1 with hsess | hcmd
    · have hss : s = "session_id = ?" := by
        revert hsess; cases input.sessionId <;> simp
      subst hss
      have hall : ∀ a ∈ "session_id = ?".data, a ∈ condClauseChars := by decide
      exact hall c hc
    · have hss : s = "command = ?" := by
        revert hcmd; cases input.command <;> simp
      subst hss
      have hall : ∀ a ∈ "command = ?".data, a ∈ condClauseChars := by decide
      exact hall c hc
  · obtain ⟨lv, hlv, hss⟩ : ∃ lv, input.level = some lv ∧
        s = "level IN (" ++ joinSep ", " ((jsLevelArray lv).map fun _ => "?") ++ ")" := by
      revert hlvl; cases hL : input.level <;> simp
    subst hss
    rw [String.data_append, String.data_append] at hc
    rcases List.mem_append.mp hc with hc1 | hc2
    · rcases List.mem_append.mp hc1 with hc3 | hc4
      · have hall : ∀ a ∈ "level IN (".data, a ∈ condClauseChars := by decide
        exact hall c hc3
      · rcases mem_data_joinSep hc4 with hsep | ⟨q, hq, hcq⟩
        · have hall : ∀ a ∈ ", ".data, a ∈ condClauseChars := by decide
          exact hall c hsep
        · obtain ⟨_, _, hq'⟩ := List.mem_map.mp hq
          rw [← hq'] at hcq
          have hall : ∀ a ∈ "?".data, a ∈ condClauseChars := by decide
          exact hall c hcq
    · have hall : ∀ a ∈ ")".data, a ∈ condClauseChars := by decide
      exact hall c hc2

theorem mem_whereClause_chars {input : LogsQueryInput} {c : Char}
    (h : c ∈ (whereClause input).data) : c ∈ whereChars := by
  rw [whereClause] at h
  split at h
  · rw [String.data_append] at h
    rcases List.mem_append.mp h with h1 | h2
    · refine List.mem_append.mpr (Or.inl ?_)
      have hall : ∀ a ∈ "WHERE ".data, a ∈ ("WHERE AND").data := by decide
      exact hall c h1
    · rcases mem_data_joinSep h2 with hsep | ⟨s, hsl, hcs⟩
      · refine List.mem_append.mpr (Or.inl ?_)
        have hall : ∀ a ∈ " AND ".data, a ∈ ("WHERE AND").data := by decide
        exact hall c hsep
      · exact List.mem_append.mpr (Or.inr (mem_conditions_chars hsl hcs))
  · simp at h

/-! ### Head and character-set facts about the optional clauses -/

theorem mem_of_head? {α : Type} {l : List α} {a : α} (h : l.head? = some a) :
    a ∈ l := by
  cases l with
  | nil => simp at h
  | cons x xs => simp at h; simp [h]

theorem orderDir_cases (input : LogsQueryInput) :
    orderDir input = "ASC" ∨ orderDir input = "DESC" := by
  rw [orderDir]; split
  · exact Or.inl rfl
  · exact Or.inr rfl

theorem whereClause_head (input : LogsQueryInput) :
    (whereClause input).data.head? = none ∨
      (whereClause input).data.head? = some 'W' := by
  rw [whereClause]; split
  · right; rw [String.data_append]; rfl
  · left; rfl

theorem limitClause_head (input : LogsQueryInput) :
    (limitClause input).data.head? = none ∨
      (limitClause input).data.head? = some 'L' := by
  rw [limitClause]
  cases input.limit with
  | none => exact Or.inl rfl
  | some l => right; rw [String.data_append]; rfl

theorem offsetClause_head (input : LogsQueryInput) :
    (offsetClause input).data.head? = none ∨
      (offsetClause input).data.head? = some 'O' := by
  rw [offsetClause]
  cases input.offset with
  | none => exact Or.inl rfl
  | some o => right; rw [String.data_append]; rfl

theorem mem_limitClause_chars {input : LogsQueryInput}
    (hnum : ∀ l, input.limit = some l → RenderedNumber l) {c : Char}
    (h : c ∈ (limitClause input).data) : c ∈ "LIMIT ".data ++ jsNumberChars := by
  rw [limitClause] at h
  cases hl : input.limit with
  | none => rw [hl] at h; simp at h
  | some l =>
    rw [hl, String.data_append] at h
    rcases List.mem_append.mp h with h1 | h2
    · exact List.mem_append.mpr (Or.inl h1)
    · exact List.mem_append.mpr (Or.inr (hnum l hl c h2))

theorem mem_offsetClause_chars {input : LogsQueryInput}
    (hnum : ∀ o, input.offset = some o → RenderedNumber o) {c : Char}
    (h : c ∈ (offsetClause input).data) : c ∈ "OFFSET ".data ++ jsNumberChars := by
  rw [offsetClause] at h
  cases hl : input.offset with
  | none => rw [hl] at h; simp at h
  | some o =>
    rw [hl, String.data_append] at h
    rcases List.mem_append.mp h with h1 | h2
    · exact List.mem_append.mpr (Or.inl h1)
    · exact List.mem_append.mpr (Or.inr (hnum o hl c h2))

/-! ### Non-occurrence over a flattened segment list -/

theorem head?_flatten {α : Type} {L : List (List α)} {c : α}
    (h : L.flatten.head? = some c) : ∃ seg ∈ L, seg.head? = some c := by
  induction L with
  | nil => simp at h
  | cons s L ih =>
    rw [List.flatten_cons, List.head?_append] at h
    cases hs : s.head? with
    | none =>
      rw [hs] at h
      simp only [Option.none_or] at h
      obtain ⟨seg, hseg, hc⟩ := ih h
      exact ⟨seg, by simp [hseg], hc⟩
    | some a =>
      rw [hs] at h
      have h' : a = c := by simpa [Option.or] using h
      exact ⟨s, by simp, by rw [hs, h']⟩

/-- Master lemma: a nonempty pattern does not occur in the concatenation
of a list of segments when it occurs in no single segment and no segment
after the first starts with a character of the pattern's tail (so no
occurrence can span a boundary). -/
theorem not_isInfix_flatten {α : Type} {p : List α} (hp : p ≠ [])
    {L : List (List α)}
    (hmem : ∀ seg ∈ L, ¬ p <:+: seg)
    (hhead : ∀ seg ∈ L.tail, ∀ c, seg.head? = some c → c ∉ p.tail) :
    ¬ p <:+: L.flatten := by
  induction L with
  | nil =>
    intro h
    exact hp (by simpa using h)
  | cons s L ih =>
    rw [List.flatten_cons]
    apply not_isInfix_append_of_head (hmem s (by simp))
    · exact ih (fun seg hseg => hmem seg (by simp [hseg]))
        (fun seg hseg => hhead seg (List.mem_of_mem_tail hseg))
    · intro c hc
      obtain ⟨seg, hseg, hsc⟩ := head?_flatten hc
      exact hhead seg (by simpa using hseg) c hsc

/-- The assembled SQL text, as the concatenation of its nine segments:
fixed header, where clause, fixed order-by text, direction, whitespace,
limit clause, whitespace, offset clause, trailing whitespace. -/
theorem logsQuerySql_segments (input : LogsQueryInput) :
    (logsQuerySql input).data =
      List.flatten [sqlSelectHead.data, (whereClause input).data,
        "\n        ORDER BY timestamp ".data, (orderDir input).data,
        "\n        ".data, (limitClause input).data,
        "\n        ".data, (offsetClause input).data, "\n      ".data] := by
  simp [logsQuerySql, String.data_append]

/-! ## Claims -/

/-- Claim C8: the schema adapter used for all eight input/output schemas
performs no validation: for every value `x`, `parse x` returns `x`
unchanged and `safeParse x` returns success with data exactly `x`; no
value is ever rejected or transformed, for any of the four procedures
(all eight schema constants are instances of the same `schema` factory). -/
theorem claim_C8_schema_passthrough :
    (∀ (T : Type) (x : T),
        (schema T).parse x = x ∧
        (schema T).safeParse x = SafeParseResult.success x) ∧
    dbQueryInputSchema = schema DbQueryInput ∧
    (∀ ρ, dbQueryOutputSchema ρ = schema (DbQueryOutput ρ)) ∧
    dbExecuteInputSchema = schema DbExecuteInput ∧
    dbExecuteOutputSchema = schema DbExecuteOutput ∧
    (∀ α, logsStoreInputSchema α = schema (LogsStoreInput α)) ∧
    logsStoreOutputSchema = schema LogsStoreOutput ∧
    logsQueryInputSchema = schema LogsQueryInput ∧
    (∀ α, logsQueryOutputSchema α = schema (LogsQueryOutput α)) :=
  ⟨fun _ _ => ⟨rfl, rfl⟩, rfl, fun _ => rfl, rfl, rfl, fun _ => rfl, rfl, rfl,
    fun _ => rfl⟩

/-- Claim C7: the default database path is the home directory joined with
`logs/cli/cli.db`, and each of the four handlers resolves its working
path as the explicit `dbPath` when provided, the default otherwise. -/
theorem claim_C7_default_path (home : String) :
    DEFAULT_DB_PATH home = home ++ "/logs/cli/cli.db" ∧
    (∀ input : DbQueryInput,
        (dbQuery home input).dbPath =
          match input.dbPath with
          | some p => p
          | none => DEFAULT_DB_PATH home) ∧
    (∀ input : DbExecuteInput,
        (dbExecute home input).dbPath =
          match input.dbPath with
          | some p => p
          | none => DEFAULT_DB_PATH home) ∧
    (∀ (α : Type) (stringify : α → String) (input : LogsStoreInput α),
        (logsStore home stringify input).dbPath =
          match input.dbPath with
          | some p => p
          | none => DEFAULT_DB_PATH home) ∧
    (∀ input : LogsQueryInput,
        (logsQueryCall home input).dbPath =
          match input.dbPath with
          | some p => p
          | none => DEFAULT_DB_PATH home) := by
  refine ⟨?_, ?_, ?_, ?_, ?_⟩
  · apply String.ext
    simp only [DEFAULT_DB_PATH, joinSep, String.data_append, List.append_assoc]
    rw [List.append_right_inj]
    decide
  · intro input; cases h : input.dbPath <;> simp [dbQuery, h]
  · intro input; cases h : input.dbPath <;> simp [dbExecute, h]
  · intro α stringify input
    rw [logsStore]
    split <;> cases input.dbPath <;> rfl
  · intro input; cases h : input.dbPath <;> simp [logsQueryCall, h]

/-- Claim C5: a `logs.store` input whose level is not one of the five
enumerated values fails with the invalid-level error before any
table-ensure or connection work (the effect trace is empty, so no
connection is opened and no write occurs); an input whose level is in the
set does not raise the invalid-level error and proceeds to the table
ensure, connection, insert and last-insert-id read. -/
theorem claim_C5_level_validation {α : Type} (home : String)
    (stringify : α → String) (input : LogsStoreInput α) :
    (input.level ∉ LOG_LEVELS →
        logsStore home stringify input =
          { dbPath := input.dbPath.getD (DEFAULT_DB_PATH home)
            effects := []
            outcome := Except.error ("Invalid log level: " ++ input.level) }) ∧
    (input.level ∈ LOG_LEVELS →
        (logsStore home stringify input).outcome = Except.ok () ∧
        (logsStore home stringify input).effects =
          [StoreEffect.ensureTable (input.dbPath.getD (DEFAULT_DB_PATH home)),
           StoreEffect.openConnection (input.dbPath.getD (DEFAULT_DB_PATH home)),
           StoreEffect.insertRow logsInsertSql (logsStoreInsertValues stringify input),
           StoreEffect.readLastInsertRowId]) := by
  constructor
  · intro h
    rw [logsStore]
    simp [h]
  · intro h
    rw [logsStore]
    simp [h]

/-- Witness for claim C5: the level `bogus` is rejected with the exact
error and an empty effect trace; the level `warn` is accepted. -/
theorem claim_C5_witness :
    ("bogus" ∉ LOG_LEVELS) ∧
    (logsStore "/h" (fun _ : Unit => "null")
        { level := "bogus", message := "m" }).outcome =
      Except.error "Invalid log level: bogus" ∧
    (logsStore "/h" (fun _ : Unit => "null")
        { level := "bogus", message := "m" }).effects = [] ∧
    (logsStore "/h" (fun _ : Unit => "null")
        { level := "warn", message := "m" }).outcome = Except.ok () := by
  refine ⟨by decide, ?_, ?_, ?_⟩
  · rw [(claim_C5_level_validation "/h" (fun _ : Unit => "null")
      { level := "bogus", message := "m" }).1 (by decide)]
    exact congrArg Except.error (by decide)
  · rw [(claim_C5_level_validation "/h" (fun _ : Unit => "null")
      { level := "bogus", message := "m" }).1 (by decide)]
  · exact ((claim_C5_level_validation "/h" (fun _ : Unit => "null")
      { level := "warn", message := "m" }).2 (by decide)).1

/-- Claim C2: with a level filter present, a single value becomes a
one-element membership set; the membership clause holds exactly one
placeholder per element of the set (counted as `?` characters); the bind
values are appended after the other filter values in the set's given
order; nothing is deduplicated — the clause and values are built from
the list exactly as provided. -/
theorem claim_C2_level_set (input : LogsQueryInput) (lv : String ⊕ List String)
    (h : input.level = some lv) :
    (∀ l, lv = Sum.inl l → jsLevelArray lv = [l]) ∧
    conditions input =
      (match input.sessionId with
       | some _ => ["session_id = ?"]
       | none => ([] : List String)) ++
      (match input.command with
       | some _ => ["command = ?"]
       | none => []) ++
      ["level IN (" ++ joinSep ", " ((jsLevelArray lv).map fun _ => "?") ++ ")"] ∧
    ("level IN (" ++ joinSep ", " ((jsLevelArray lv).map fun _ => "?") ++ ")").data.count '?'
      = (jsLevelArray lv).length ∧
    params input =
      (match input.sessionId with
       | some s => [s]
       | none => ([] : List String)) ++
      (match input.command with
       | some c => [c]
       | none => []) ++ jsLevelArray lv := by
  refine ⟨?_, ?_, ?_, ?_⟩
  · intro l hl; rw [hl]; rfl
  · rw [conditions_eq, h]
  · rw [List.map_const', String.data_append, String.data_append,
      List.count_append, List.count_append, count_joinSep_replicate]
    have h1 : List.count '?' "level IN (".data = 0 := rfl
    have h2 : List.count '?' ")".data = 0 := rfl
    omega
  · rw [params_eq, h]

/-- Witness for claim C2: a duplicated two-element level set produces two
placeholders and two bind values, in order, not deduplicated. -/
theorem claim_C2_witness :
    conditions { level := some (Sum.inr ["warn", "warn"]) } = ["level IN (?, ?)"] ∧
    params { level := some (Sum.inr ["warn", "warn"]) } = ["warn", "warn"] ∧
    jsLevelArray (Sum.inl "info") = ["info"] := by
  have h := claim_C2_level_set { level := some (Sum.inr ["warn", "warn"]) }
    (Sum.inr ["warn", "warn"]) rfl
  refine ⟨?_, ?_, ?_⟩
  · rw [h.2.1]; decide
  · rw [h.2.2.2]; decide
  · have h2 := claim_C2_level_set { level := some (Sum.inl "info") }
      (Sum.inl "info") rfl
    exact h2.1 "info" rfl

/-- Claim C6: the `data` field round-trips through the store and query
plumbing: the stored column for present data is the serialized text
(nonempty, in particular `\x7b\x7d` for an empty mapping — never the null
marker), absent data stores the null marker, and the query row mapping
deserializes the stored column back to a mapping deep-equal to the
original (equal in the model), given the platform codec inverse
contract. -/
theorem claim_C6_data_roundtrip {α : Type} (stringify : α → String)
    (parse : String → Except String α)
    (hinv : ∀ x, parse (stringify x) = Except.ok x)
    (hne : ∀ x, stringify x ≠ "") :
    (∀ od : Option α, dataField parse (dataJson stringify od) = Except.ok od) ∧
    (dataJson stringify (none : Option α) = none) ∧
    (∀ d, dataJson stringify (some d) = some (stringify d)) ∧
    (∀ e : α, stringify e = "\x7b\x7d" →
        dataJson stringify (some e) = some "\x7b\x7d") ∧
    (∀ input : LogsStoreInput α,
        (logsStoreInsertValues stringify input).get? 2 =
          some (dataJson stringify input.data)) ∧
    (∀ (row : LogRow) (d : α), row.data = some (stringify d) →
        mapRow parse row = Except.ok
          { id := row.id, timestamp := row.timestamp, level := row.level
            message := row.message, data := some d, sessionId := row.session_id
            command := row.command, context := row.context
            errorStack := row.error_stack }) := by
  refine ⟨?_, rfl, fun d => rfl, ?_, fun input => rfl, ?_⟩
  · intro od
    cases od with
    | none => rfl
    | some d => simp [dataJson, dataField, hne d, hinv d, Except.map]
  · intro e he
    simp [dataJson, he]
  · intro row d hd
    simp [mapRow, hd, dataField, hne d, hinv d, Except.map]

/-- Witness for claim C6: the toy codec satisfies the platform contract,
and present data — the empty mapping — round-trips to itself while
absent data round-trips to the null marker. -/
theorem claim_C6_witness :
    dataField unitParse (dataJson unitStringify (some ())) = Except.ok (some ()) ∧
    dataField unitParse (dataJson unitStringify (none : Option Unit)) = Except.ok none ∧
    dataJson unitStringify (some ()) = some "\x7b\x7d" := by
  have h := claim_C6_data_roundtrip unitStringify unitParse
    (fun x => by cases x; simp [unitParse, unitStringify])
    (fun x => by simp [unitStringify])
  exact ⟨h.1 (some ()), h.1 none, h.2.2.2.1 () rfl⟩

/-- Claim C10: the row mapping of `logs.query` decides data-null by JS
truthiness: a SQL NULL or empty-string data column maps to null data;
any other stored text goes to the JSON parser, and a parse error on any
returned row makes the whole mapping — hence the whole call — fail
rather than skip the row. -/
theorem claim_C10_data_truthiness {α : Type} (parse : String → Except String α) :
    (∀ row : LogRow, row.data = none →
        mapRow parse row = Except.ok
          { id := row.id, timestamp := row.timestamp, level := row.level
            message := row.message, data := none, sessionId := row.session_id
            command := row.command, context := row.context
            errorStack := row.error_stack }) ∧
    (∀ row : LogRow, row.data = some "" →
        mapRow parse row = Except.ok
          { id := row.id, timestamp := row.timestamp, level := row.level
            message := row.message, data := none, sessionId := row.session_id
            command := row.command, context := row.context
            errorStack := row.error_stack }) ∧
    (∀ (row : LogRow) (s : String), row.data = some s → s ≠ "" →
        dataField parse row.data = (parse s).map Option.some) ∧
    (∀ (row : LogRow) (s e : String), row.data = some s → s ≠ "" →
        parse s = Except.error e → mapRow parse row = Except.error e) ∧
    (∀ (rows : List LogRow) (row : LogRow) (e : String), row ∈ rows →
        mapRow parse row = Except.error e →
        ∃ e', mapRows parse rows = Except.error e') := by
  refine ⟨?_, ?_, ?_, ?_, ?_⟩
  · intro row h; simp [mapRow, h, dataField, Except.map]
  · intro row h; simp [mapRow, h, dataField, Except.map]
  · intro row s hs hne'; rw [hs]; simp [dataField, hne']
  · intro row s e hs hne' hp; simp [mapRow, hs, dataField, hne', hp, Except.map]
  · intro rows row e
    induction rows with
    | nil => intro hmem _; simp at hmem
    | cons r rest ih =>
      intro hmem hrow
      rcases List.mem_cons.mp hmem with hh | hh
      · subst hh
        exact ⟨e, by rw [mapRows, hrow]; rfl⟩
      · cases hr : mapRow parse r with
        | error e2 => exact ⟨e2, by rw [mapRows, hr]; rfl⟩
        | ok v =>
          obtain ⟨e', he'⟩ := ih hh hrow
          exact ⟨e', by rw [mapRows, hr, he']; rfl⟩

/-- Witness for claim C10: a row whose data column holds non-empty text
rejected by the parser makes the whole mapping fail, and an
empty-string data column maps to null data. -/
theorem claim_C10_witness :
    (∃ e', mapRows unitParse
        [{ id := 1, timestamp := "t", level := "info", message := "m"
           data := some "notjson" }] = Except.error e') ∧
    mapRow unitParse
        { id := 1, timestamp := "t", level := "info", message := "m"
          data := some "" } =
      Except.ok
        { id := 1, timestamp := "t", level := "info", message := "m"
          data := none, sessionId := none, command := none, context := none
          errorStack := none } := by
  constructor
  · exact (claim_C10_data_truthiness unitParse).2.2.2.2
      [{ id := 1, timestamp := "t", level := "info", message := "m"
         data := some "notjson" }]
      { id := 1, timestamp := "t", level := "info", message := "m"
        data := some "notjson" } "unexpected JSON"
      (by simp) (by simp [mapRow, dataField, unitParse, Except.map])
  · exact (claim_C10_data_truthiness unitParse).2.1
      { id := 1, timestamp := "t", level := "info", message := "m"
        data := some "" } rfl

/-- Claim C4: the assembled SQL orders by timestamp, with direction ASC
exactly when `orderBy` is the string `asc`, and DESC in every other
case, including when `orderBy` is absent or holds any other value. -/
theorem claim_C4_order_direction (input : LogsQueryInput) :
    (orderDir input = "ASC" ↔ input.orderBy = some "asc") ∧
    (orderDir input = "DESC" ↔ input.orderBy ≠ some "asc") ∧
    HasSubstr ("ORDER BY timestamp " ++ orderDir input) (logsQuerySql input) := by
  have hsplit : ("\n        ORDER BY timestamp ").data =
      "\n        ".data ++ "ORDER BY timestamp ".data := by decide
  refine ⟨?_, ?_, ?_⟩
  · by_cases hob : input.orderBy = some "asc"
    · rw [orderDir, if_pos hob]
      exact iff_of_true rfl hob
    · rw [orderDir, if_neg hob]
      exact iff_of_false (by decide) hob
  · by_cases hob : input.orderBy = some "asc"
    · rw [orderDir, if_pos hob]
      exact iff_of_false (by decide) (by simp [hob])
    · rw [orderDir, if_neg hob]
      exact iff_of_true rfl hob
  · apply hasSubstr_intro ((sqlSelectHead ++ whereClause input).data ++ "\n        ".data)
      (("\n        " ++ limitClause input ++ "\n        " ++ offsetClause input ++ "\n      ").data)
    simp [logsQuerySql, String.data_append, hsplit]

/-- Claim C9: provided limit and offset values are interpolated verbatim
into the SQL text (the rendering of whatever value was provided appears
directly, with no non-negativity or integrality check), and they are not
bound as placeholder parameters — the bind list holds only the filter
values. -/
theorem claim_C9_verbatim_interpolation (input : LogsQueryInput) :
    (∀ l, input.limit = some l → HasSubstr ("LIMIT " ++ l) (logsQuerySql input)) ∧
    (∀ o, input.offset = some o → HasSubstr ("OFFSET " ++ o) (logsQuerySql input)) ∧
    params input =
      (match input.sessionId with
       | some s => [s]
       | none => ([] : List String)) ++
      (match input.command with
       | some c => [c]
       | none => []) ++
      (match input.level with
       | some lv => jsLevelArray lv
       | none => []) := by
  refine ⟨?_, ?_, params_eq input⟩
  · intro l hl
    apply hasSubstr_intro
      ((sqlSelectHead ++ whereClause input ++ "\n        ORDER BY timestamp " ++
        orderDir input ++ "\n        ").data)
      (("\n        " ++ offsetClause input ++ "\n      ").data)
    simp [logsQuerySql, limitClause, hl, String.data_append]
  · intro o ho
    apply hasSubstr_intro
      ((sqlSelectHead ++ whereClause input ++ "\n        ORDER BY timestamp " ++
        orderDir input ++ "\n        " ++ limitClause input ++ "\n        ").data)
      ("\n      ".data)
    simp [logsQuerySql, offsetClause, ho, String.data_append]

/-- Witness for claim C9: a negative fractional limit rendering and a
non-numeric offset rendering both appear verbatim in the assembled SQL,
and the bind list stays empty. -/
theorem claim_C9_witness :
    HasSubstr "LIMIT -3.5"
      (logsQuerySql { limit := some "-3.5", offset := some "abc" }) ∧
    HasSubstr "OFFSET abc"
      (logsQuerySql { limit := some "-3.5", offset := some "abc" }) ∧
    params { limit := some "-3.5", offset := some "abc" } = [] := by
  have h := claim_C9_verbatim_interpolation
    { limit := some "-3.5", offset := some "abc" }
  refine ⟨?_, ?_, h.2.2⟩
  · have h1 := h.1 "-3.5" rfl
    rwa [show ("LIMIT " ++ "-3.5" : String) = "LIMIT -3.5" by decide] at h1
  · have h2 := h.2.1 "abc" rfl
    rwa [show ("OFFSET " ++ "abc" : String) = "OFFSET abc" by decide] at h2

set_option maxRecDepth 4000 in
/-- Claim C1: WHERE predicates are appended in the fixed order sessionId
equality, command equality, level membership, including only the filters
present; bind values are pushed positionally in the same order; the
predicates are joined with AND after the WHERE keyword; with no filter
present the WHERE clause is omitted entirely and the SQL contains no
WHERE keyword at all (when any provided limit/offset is the rendering of
a number, as the declared input type prescribes). -/
theorem claim_C1_where_assembly (input : LogsQueryInput) :
    conditions input =
      (match input.sessionId with
       | some _ => ["session_id = ?"]
       | none => ([] : List String)) ++
      (match input.command with
       | some _ => ["command = ?"]
       | none => []) ++
      (match input.level with
       | some lv =>
           ["level IN (" ++ joinSep ", " ((jsLevelArray lv).map fun _ => "?") ++ ")"]
       | none => []) ∧
    params input =
      (match input.sessionId with
       | some s => [s]
       | none => ([] : List String)) ++
      (match input.command with
       | some c => [c]
       | none => []) ++
      (match input.level with
       | some lv => jsLevelArray lv
       | none => []) ∧
    (conditions input ≠ [] →
        whereClause input = "WHERE " ++ joinSep " AND " (conditions input) ∧
        HasSubstr ("WHERE " ++ joinSep " AND " (conditions input))
          (logsQuerySql input)) ∧
    (input.sessionId = none → input.command = none → input.level = none →
        whereClause input = "" ∧
        ((∀ l, input.limit = some l → RenderedNumber l) →
         (∀ o, input.offset = some o → RenderedNumber o) →
         ¬ HasSubstr "WHERE" (logsQuerySql input))) := by
  refine ⟨conditions_eq input, params_eq input, ?_, ?_⟩
  · intro hne'
    have hw : whereClause input = "WHERE " ++ joinSep " AND " (conditions input) := by
      rw [whereClause, if_pos (List.length_pos.mpr hne')]
    refine ⟨hw, ?_⟩
    apply hasSubstr_intro (sqlSelectHead.data)
      (("\n        ORDER BY timestamp " ++ orderDir input ++ "\n        " ++
        limitClause input ++ "\n        " ++ offsetClause input ++ "\n      ").data)
    rw [← hw]
    simp [logsQuerySql, String.data_append]
  · intro h1 h2 h3
    have hc : conditions input = [] := by simp [conditions_eq, h1, h2, h3]
    have hwc : whereClause input = "" := by simp [whereClause, hc]
    refine ⟨hwc, ?_⟩
    intro hnl hno
    show ¬ "WHERE".data <:+: (logsQuerySql input).data
    rw [logsQuerySql_segments]
    apply not_isInfix_flatten (by decide : ("WHERE").data ≠ [])
    · intro seg hseg
      simp only [List.mem_cons, List.not_mem_nil, or_false] at hseg
      rcases hseg with h|h|h|h|h|h|h|h|h <;> subst h
      · decide
      · rw [hwc]; decide
      · decide
      · rcases orderDir_cases input with h|h <;> rw [h] <;> decide
      · decide
      · refine not_isInfix_of_forbidden (c := 'W') (by decide) ?_
        intro hw'
        have hmem := mem_limitClause_chars hnl hw'
        revert hmem; decide
      · decide
      · refine not_isInfix_of_forbidden (c := 'W') (by decide) ?_
        intro hw'
        have hmem := mem_offsetClause_chars hno hw'
        revert hmem; decide
      · decide
    · intro seg hseg c hc'
      simp only [List.tail_cons, List.mem_cons, List.not_mem_nil, or_false] at hseg
      rcases hseg with h|h|h|h|h|h|h|h <;> subst h
      · rcases whereClause_head input with h1'|h1' <;> rw [h1'] at hc'
        · cases hc'
        · injection hc' with h2'; subst h2'; decide
      · have hh : ("\n        ORDER BY timestamp ").data.head? = some '\n' := rfl
        rw [hh] at hc'; injection hc' with h2'; subst h2'; decide
      · rcases orderDir_cases input with h1'|h1' <;> rw [h1'] at hc'
        · have hh : ("ASC").data.head? = some 'A' := rfl
          rw [hh] at hc'; injection hc' with h2'; subst h2'; decide
        · have hh : ("DESC").data.head? = some 'D' := rfl
          rw [hh] at hc'; injection hc' with h2'; subst h2'; decide
      · have hh : ("\n        ").data.head? = some '\n' := rfl
        rw [hh] at hc'; injection hc' with h2'; subst h2'; decide
      · rcases limitClause_head input with h1'|h1' <;> rw [h1'] at hc'
        · cases hc'
        · injection hc' with h2'; subst h2'; decide
      · have hh : ("\n        ").data.head? = some '\n' := rfl
        rw [hh] at hc'; injection hc' with h2'; subst h2'; decide
      · rcases offsetClause_head input with h1'|h1' <;> rw [h1'] at hc'
        · cases hc'
        · injection hc' with h2'; subst h2'; decide
      · have hh : ("\n      ").data.head? = some '\n' := rfl
        rw [hh] at hc'; injection hc' with h2'; subst h2'; decide

/-- Witness for claim C1: with no filters the conditions and the WHERE
clause are empty and the SQL holds no WHERE keyword; with sessionId and
command filters the clause lists both predicates joined by AND, in
order, and the bind values follow that order. -/
theorem claim_C1_witness :
    conditions ({} : LogsQueryInput) = [] ∧
    whereClause ({} : LogsQueryInput) = "" ∧
    ¬ HasSubstr "WHERE" (logsQuerySql {}) ∧
    HasSubstr "WHERE session_id = ? AND command = ?"
      (logsQuerySql { sessionId := some "s", command := some "c" }) ∧
    params { sessionId := some "s", command := some "c" } = ["s", "c"] := by
  have h0 := claim_C1_where_assembly ({} : LogsQueryInput)
  have h1 := claim_C1_where_assembly { sessionId := some "s", command := some "c" }
  have hcnd : conditions { sessionId := some "s", command := some "c" } =
      ["session_id = ?", "command = ?"] := by
    rw [h1.1]; rfl
  refine ⟨by simpa using h0.1, (h0.2.2.2 rfl rfl rfl).1, ?_, ?_, by simpa using h1.2.1⟩
  · exact (h0.2.2.2 rfl rfl rfl).2 (fun l h => nomatch h) (fun o h => nomatch h)
  · have h2 := (h1.2.2.1 (by rw [hcnd]; decide)).2
    rw [hcnd] at h2
    rwa [show ("WHERE " ++ joinSep " AND " ["session_id = ?", "command = ?"] : String)
        = "WHERE session_id = ? AND command = ?" by decide] at h2

set_option maxRecDepth 4000 in
/-- Claim C3: the SQL contains a LIMIT clause exactly when `limit` is
provided and an OFFSET clause exactly when `offset` is provided, the two
being independent (the non-occurrence directions hold whenever the other
clause, if present, is the rendering of a number, as the declared input
type prescribes). -/
theorem claim_C3_limit_offset (input : LogsQueryInput) :
    (∀ l, input.limit = some l →
        limitClause input = "LIMIT " ++ l ∧
        HasSubstr ("LIMIT " ++ l) (logsQuerySql input)) ∧
    (∀ o, input.offset = some o →
        offsetClause input = "OFFSET " ++ o ∧
        HasSubstr ("OFFSET " ++ o) (logsQuerySql input)) ∧
    (input.limit = none →
        limitClause input = "" ∧
        ((∀ o, input.offset = some o → RenderedNumber o) →
         ¬ HasSubstr "LIMIT" (logsQuerySql input))) ∧
    (input.offset = none →
        offsetClause input = "" ∧
        ((∀ l, input.limit = some l → RenderedNumber l) →
         ¬ HasSubstr "OFFSET" (logsQuerySql input))) := by
  refine ⟨?_, ?_, ?_, ?_⟩
  · intro l hl
    refine ⟨by simp [limitClause, hl], ?_⟩
    apply hasSubstr_intro
      ((sqlSelectHead ++ whereClause input ++ "\n        ORDER BY timestamp " ++
        orderDir input ++ "\n        ").data)
      (("\n        " ++ offsetClause input ++ "\n      ").data)
    simp [logsQuerySql, limitClause, hl, String.data_append]
  · intro o ho
    refine ⟨by simp [offsetClause, ho], ?_⟩
    apply hasSubstr_intro
      ((sqlSelectHead ++ whereClause input ++ "\n        ORDER BY timestamp " ++
        orderDir input ++ "\n        " ++ limitClause input ++ "\n        ").data)
      ("\n      ".data)
    simp [logsQuerySql, offsetClause, ho, String.data_append]
  · intro hlim
    have hl0 : limitClause input = "" := by simp [limitClause, hlim]
    refine ⟨hl0, ?_⟩
    intro hno
    show ¬ "LIMIT".data <:+: (logsQuerySql input).data
    rw [logsQuerySql_segments]
    apply not_isInfix_flatten (by decide : ("LIMIT").data ≠ [])
    · intro seg hseg
      simp only [List.mem_cons, List.not_mem_nil, or_false] at hseg
      rcases hseg with h|h|h|h|h|h|h|h|h <;> subst h
      · decide
      · refine not_isInfix_of_forbidden (c := 'M') (by decide) ?_
        intro hw'
        have hmem := mem_whereClause_chars hw'
        revert hmem; decide
      · decide
      · rcases orderDir_cases input with h|h <;> rw [h] <;> decide
      · decide
      · rw [hl0]; decide
      · decide
      · refine not_isInfix_of_forbidden (c := 'M') (by decide) ?_
        intro hw'
        have hmem := mem_offsetClause_chars hno hw'
        revert hmem; decide
      · decide
    · intro seg hseg c hc'
      simp only [List.tail_cons, List.mem_cons, List.not_mem_nil, or_false] at hseg
      rcases hseg with h|h|h|h|h|h|h|h <;> subst h
      · rcases whereClause_head input with h1'|h1' <;> rw [h1'] at hc'
        · cases hc'
        · injection hc' with h2'; subst h2'; decide
      · have hh : ("\n        ORDER BY timestamp ").data.head? = some '\n' := rfl
        rw [hh] at hc'; injection hc' with h2'; subst h2'; decide
      · rcases orderDir_cases input with h1'|h1' <;> rw [h1'] at hc'
        · have hh : ("ASC").data.head? = some 'A' := rfl
          rw [hh] at hc'; injection hc' with h2'; subst h2'; decide
        · have hh : ("DESC").data.head? = some 'D' := rfl
          rw [hh] at hc'; injection hc' with h2'; subst h2'; decide
      · have hh : ("\n        ").data.head? = some '\n' := rfl
        rw [hh] at hc'; injection hc' with h2'; subst h2'; decide
      · rcases limitClause_head input with h1'|h1' <;> rw [h1'] at hc'
        · cases hc'
        · injection hc' with h2'; subst h2'; decide
      · have hh : ("\n        ").data.head? = some '\n' := rfl
        rw [hh] at hc'; injection hc' with h2'; subst h2'; decide
      · rcases offsetClause_head input with h1'|h1' <;> rw [h1'] at hc'
        · cases hc'
        · injection hc' with h2'; subst h2'; decide
      · have hh : ("\n      ").data.head? = some '\n' := rfl
        rw [hh] at hc'; injection hc' with h2'; subst h2'; decide
  · intro hoff
    have ho0 : offsetClause input = "" := by simp [offsetClause, hoff]
    refine ⟨ho0, ?_⟩
    intro hnl
    show ¬ "OFFSET".data <:+: (logsQuerySql input).data
    rw [logsQuerySql_segments]
    apply not_isInfix_flatten (by decide : ("OFFSET").data ≠ [])
    · intro seg hseg
      simp only [List.mem_cons, List.not_mem_nil, or_false] at hseg
      rcases hseg with h|h|h|h|h|h|h|h|h <;> subst h
      · decide
      · refine not_isInfix_of_forbidden (c := 'O') (by decide) ?_
        intro hw'
        have hmem := mem_whereClause_chars hw'
        revert hmem; decide
      · decide
      · rcases orderDir_cases input with h|h <;> rw [h] <;> decide
      · decide
      · refine not_isInfix_of_forbidden (c := 'O') (by decide) ?_
        intro hw'
        have hmem := mem_limitClause_chars hnl hw'
        revert hmem; decide
      · decide
      · rw [ho0]; decide
      · decide
    · intro seg hseg c hc'
      simp only [List.tail_cons, List.mem_cons, List.not_mem_nil, or_false] at hseg
      rcases hseg with h|h|h|h|h|h|h|h <;> subst h
      · rcases whereClause_head input with h1'|h1' <;> rw [h1'] at hc'
        · cases hc'
        · injection hc' with h2'; subst h2'; decide
      · have hh : ("\n        ORDER BY timestamp ").data.head? = some '\n' := rfl
        rw [hh] at hc'; injection hc' with h2'; subst h2'; decide
      · rcases orderDir_cases input with h1'|h1' <;> rw [h1'] at hc'
        · have hh : ("ASC").data.head? = some 'A' := rfl
          rw [hh] at hc'; injection hc' with h2'; subst h2'; decide
        · have hh : ("DESC").data.head? = some 'D' := rfl
          rw [hh] at hc'; injection hc' with h2'; subst h2'; decide
      · have hh : ("\n        ").data.head? = some '\n' := rfl
        rw [hh] at hc'; injection hc' with h2'; subst h2'; decide
      · rcases limitClause_head input with h1'|h1' <;> rw [h1'] at hc'
        · cases hc'
        · injection hc' with h2'; subst h2'; decide
      · have hh : ("\n        ").data.head? = some '\n' := rfl
        rw [hh] at hc'; injection hc' with h2'; subst h2'; decide
      · rcases offsetClause_head input with h1'|h1' <;> rw [h1'] at hc'
        · cases hc'
        · injection hc' with h2'; subst h2'; decide
      · have hh : ("\n      ").data.head? = some '\n' := rfl
        rw [hh] at hc'; injection hc' with h2'; subst h2'; decide

/-- Witness for claim C3: with offset provided and limit absent, the SQL
holds an OFFSET clause and no LIMIT clause — the two are independent. -/
theorem claim_C3_witness :
    HasSubstr "OFFSET 1" (logsQuerySql { offset := some "1" }) ∧
    ¬ HasSubstr "LIMIT" (logsQuerySql { offset := some "1" }) ∧
    limitClause { offset := some "1" } = "" := by
  have h := claim_C3_limit_offset { offset := some "1" }
  refine ⟨?_, ?_, (h.2.2.1 rfl).1⟩
  · have h1 := (h.2.1 "1" rfl).2
    rwa [show ("OFFSET " ++ "1" : String) = "OFFSET 1" by decide] at h1
  · exact (h.2.2.1 rfl).2 (fun o ho => by cases ho; decide)

/-- Witness for claim C4: `orderBy = "asc"` yields ASC; absent or a
differently-cased value yields DESC, and the default SQL holds the
descending order-by text. -/
theorem claim_C4_witness :
    orderDir { orderBy := some "asc" } = "ASC" ∧
    orderDir ({} : LogsQueryInput) = "DESC" ∧
    orderDir { orderBy := some "ASC" } = "DESC" ∧
    HasSubstr "ORDER BY timestamp DESC" (logsQuerySql {}) := by
  have h1 := claim_C4_order_direction { orderBy := some "asc" }
  have h2 := claim_C4_order_direction ({} : LogsQueryInput)
  have h3 := claim_C4_order_direction { orderBy := some "ASC" }
  refine ⟨h1.1.mpr rfl, h2.2.1.mpr (by decide), h3.2.1.mpr (by decide), ?_⟩
  have h4 := h2.2.2
  have hd : orderDir ({} : LogsQueryInput) = "DESC" := h2.2.1.mpr (by decide)
  rw [hd] at h4
  rwa [show ("ORDER BY timestamp " ++ "DESC" : String)
      = "ORDER BY timestamp DESC" by decide] at h4

/-- Witness for claim C7: the default path for a concrete home directory,
an explicit `dbPath` taking precedence, and the default applying when the
input leaves `dbPath` out. -/
theorem claim_C7_witness :
    DEFAULT_DB_PATH "/home/u" = "/home/u/logs/cli/cli.db" ∧
    (dbQuery "/home/u" { sql := "SELECT 1", dbPath := some "/tmp/x.db" }).dbPath
      = "/tmp/x.db" ∧
    (dbQuery "/home/u" { sql := "SELECT 1" }).dbPath = "/home/u/logs/cli/cli.db" ∧
    (logsQueryCall "/home/u" {}).dbPath = "/home/u/logs/cli/cli.db" := by
  have h := claim_C7_default_path "/home/u"
  refine ⟨h.1, ?_, ?_, ?_⟩
  · exact h.2.1 { sql := "SELECT 1", dbPath := some "/tmp/x.db" }
  · exact (h.2.1 { sql := "SELECT 1" }).trans h.1
  · exact (h.2.2.2.2 {}).trans h.1

/-- Witness for claim C8: a concrete value passes through `parse` and
`safeParse` unchanged. -/
theorem claim_C8_witness :
    (schema Nat).parse 7 = 7 ∧
    (schema Nat).safeParse 7 = SafeParseResult.success 7 :=
  claim_C8_schema_passthrough.1 Nat 7

end ClientSqlite
